import Mathlib

set_option maxHeartbeats 1000000

/-!
Shallow embedding of the evidence-redundancy analysis engine of go-db
(module go_db.queries.evidence).  The engine runs SQL over two tables:
`gaf_association` (annotation rows) and `isa_partof_closure` (pairs
(subject, object) meaning subject is subsumed by object).  Rows are
modelled as records of non-null string columns (the columns the engine
reads; the remaining descriptive columns are represented by one
uninterpreted column, `assigned_by`, which can also serve as an
alternative method field).  SQL queries become list filters; the
Python functions that can raise (an unknown column name is a binder
error at query time) return `Except`.
-/

/-- A row of the `gaf_association` table (the columns read by the engine). -/
structure AnnotationRec where
  db_object_id : String
  ontology_class_ref : String
  evidence_type : String
  supporting_references : String
  assigned_by : String
deriving DecidableEq, Repr

/-- A row of the `isa_partof_closure` table: (subject, object) means
subject is subsumed by (at least as specific as) object. -/
structure ClosurePair where
  subject : String
  object : String
deriving DecidableEq, Repr

/-- The database seen by the analyzer: the two tables it queries. -/
structure Store where
  gaf_association : List AnnotationRec
  isa_partof_closure : List ClosurePair
deriving DecidableEq, Repr

/-- The column names of `gaf_association` as modelled here; a dynamic
column reference (`a.{method}`) outside this list is a binder error. -/
def validFields : List String :=
  ["db_object_id", "ontology_class_ref", "evidence_type",
   "supporting_references", "assigned_by"]

/-- Dynamic column lookup used for the interpolated `a.{method}` column
references in the SQL built by the engine. -/
def AnnotationRec.getField (a : AnnotationRec) : String → Option String
  | "db_object_id" => some a.db_object_id
  | "ontology_class_ref" => some a.ontology_class_ref
  | "evidence_type" => some a.evidence_type
  | "supporting_references" => some a.supporting_references
  | "assigned_by" => some a.assigned_by
  | _ => none

/-- Value of a (valid) column; callers guard validity first. -/
def fieldVal (a : AnnotationRec) (f : String) : String :=
  (a.getField f).getD ""

/-- Result record `UniqueContributions` of the Python module. -/
structure UniqueContributions where
  annotations : List AnnotationRec
  count : Nat
  method : String
  evidence_type : Option String
  comparator_methods : Option (List String)
deriving DecidableEq, Repr

/-- The comparator clause of the redundancy subquery.  The Python code
chooses by truthiness (`if comparator_methods:`): a non-empty list
builds the OR-chain `a2.method = m1 OR ...` (`_build_comparator_clause`),
while `None` and the empty list both fall back to
`a2.{method} != a.{method}`. -/
def comparatorClause (method : String) (cm : Option (List String))
    (a a2 : AnnotationRec) : Bool :=
  match cm with
  | some (c :: cs) => (c :: cs).contains (fieldVal a2 method)
  | _ => fieldVal a2 method != fieldVal a method

/-- The shared EXISTS subquery of `check_redundancy` and
`get_unique_contributions`:
another row a2 of gaf_association, joined with the closure on
`a2.ontology_class_ref = ipc.subject`, with the comparator clause,
`ipc.object = a.ontology_class_ref` and `a2.db_object_id = a.db_object_id`. -/
def existsRedundant (s : Store) (method : String) (cm : Option (List String))
    (a : AnnotationRec) : Bool :=
  s.gaf_association.any (fun a2 =>
    s.isa_partof_closure.any (fun ipc =>
      (a2.ontology_class_ref == ipc.subject)
      && comparatorClause method cm a a2
      && (ipc.object == a.ontology_class_ref)
      && (a2.db_object_id == a.db_object_id)))

/-- Python truthiness of the optional evidence_type argument: `None`
and the empty string are both falsy, so neither adds a filter clause. -/
def evTruthy : Option String → Bool
  | some e => e != ""
  | none => false

/-- The evidence filter clause appended by `get_unique_contributions`
(and by `compare_reference_sets`): present only when the argument is
truthy. -/
def evFilterClause (ev : Option String) (a : AnnotationRec) : Bool :=
  if evTruthy ev then a.evidence_type == ev.getD "" else true

/-- `check_redundancy(method, evidence_type, comparator_methods)`:
rows of gaf_association with `evidence_type = e` for which the
redundancy subquery finds no match. -/
def check_redundancy (s : Store) (method : String) (evidence_type : String)
    (comparator_methods : Option (List String)) : Except String UniqueContributions :=
  if validFields.contains method then
    let rows := s.gaf_association.filter (fun a =>
      (a.evidence_type == evidence_type)
      && !(existsRedundant s method comparator_methods a))
    .ok { annotations := rows, count := rows.length, method := method,
          evidence_type := some evidence_type,
          comparator_methods := comparator_methods }
  else .error "Binder Error"

/-- `get_unique_contributions(method, evidence_type, comparator_methods)`:
rows for which the redundancy subquery finds no match, with the
evidence filter appended only when `evidence_type` is truthy. -/
def get_unique_contributions (s : Store) (method : String)
    (evidence_type : Option String) (comparator_methods : Option (List String)) :
    Except String UniqueContributions :=
  if validFields.contains method then
    let rows := s.gaf_association.filter (fun a =>
      !(existsRedundant s method comparator_methods a)
      && evFilterClause evidence_type a)
    .ok { annotations := rows, count := rows.length, method := method,
          evidence_type := evidence_type,
          comparator_methods := comparator_methods }
  else .error "Binder Error"

/-- `find_redundant_references(reference, evidence_type)`: rows whose
`supporting_references` equals `reference` and whose evidence type
matches, for which the (inlined) redundancy subquery with the default
different-reference comparator DOES find a match. -/
def find_redundant_references (s : Store) (reference : String)
    (evidence_type : String) : UniqueContributions :=
  let rows := s.gaf_association.filter (fun a =>
    (a.supporting_references == reference)
    && (a.evidence_type == evidence_type)
    && s.gaf_association.any (fun a2 =>
         s.isa_partof_closure.any (fun ipc =>
           (a2.ontology_class_ref == ipc.subject)
           && (a2.supporting_references != a.supporting_references)
           && (ipc.object == a.ontology_class_ref)
           && (a2.db_object_id == a.db_object_id))))
  { annotations := rows, count := rows.length,
    method := "supporting_references",
    evidence_type := some evidence_type,
    comparator_methods := none }

/-- A grouped-summary record (`ContributionSummary`): the values of the
group-by columns for this group, and the group size. -/
structure ContributionSummary where
  group_values : List (String × String)
  contribution_count : Nat
deriving DecidableEq, Repr

/-- Result record `ContributionSummaryResult`. -/
structure ContributionSummaryResult where
  summaries : List ContributionSummary
  total_unique : Nat
  group_by_fields : List String
deriving DecidableEq, Repr

/-- The group key of a row under a list of group-by columns. -/
def keyOf (gb : List String) (a : AnnotationRec) : List String :=
  gb.map (fun f => fieldVal a f)

/-- The groups of the pandas `df.groupby(group_by).size()`: one entry
per distinct key, carrying the number of rows with that key. -/
def groupCounts (rows : List AnnotationRec) (gb : List String) :
    List (List String × Nat) :=
  ((rows.map (keyOf gb)).dedup).map
    (fun k => (k, rows.countP (fun a => keyOf gb a == k)))

/-- Insertion step of the sort by descending contribution count
(`sort_values("contribution_count", ascending=False)`). -/
def insertByCountDesc (x : List String × Nat) :
    List (List String × Nat) → List (List String × Nat)
  | [] => [x]
  | y :: ys => if y.2 < x.2 then x :: y :: ys else y :: insertByCountDesc x ys

/-- Sort the groups by descending contribution count. -/
def sortByCountDesc : List (List String × Nat) → List (List String × Nat)
  | [] => []
  | x :: xs => insertByCountDesc x (sortByCountDesc xs)

/-- The grouping step of `get_unique_contributions_summary`: with an
empty result frame, return the empty summary early (no validation of
the group-by columns happens); otherwise grouping by an empty column
list or by a column absent from the result rows raises in pandas
(ValueError resp. KeyError) before any summary is built, and grouping
by present columns counts group sizes and sorts them by descending
count. -/
def summarize (u : UniqueContributions) (gb : List String) :
    Except String ContributionSummaryResult :=
  if u.annotations.isEmpty then
    .ok { summaries := [], total_unique := 0, group_by_fields := gb }
  else if gb.isEmpty then
    .error "ValueError: no group keys passed"
  else if gb.all (fun f => validFields.contains f) then
    .ok { summaries :=
            (sortByCountDesc (groupCounts u.annotations gb)).map
              (fun kn => { group_values := gb.zip kn.1,
                           contribution_count := kn.2 }),
          total_unique := u.count, group_by_fields := gb }
  else .error "KeyError"

/-- `get_unique_contributions_summary(method, evidence_type,
comparator_methods, group_by)`: runs `get_unique_contributions` (errors
propagate) and then the grouping step, with the default group-by list
[evidence_type, method]. -/
def get_unique_contributions_summary (s : Store) (method : String)
    (evidence_type : Option String) (comparator_methods : Option (List String))
    (group_by : Option (List String)) : Except String ContributionSummaryResult :=
  let gb := group_by.getD ["evidence_type", method]
  match get_unique_contributions s method evidence_type comparator_methods with
  | .error msg => .error msg
  | .ok u => summarize u gb

/-- Result record `ReferenceComparison`. -/
structure ReferenceComparison where
  unique_to_set1 : Nat
  unique_to_set2 : Nat
  overlap : Nat
  total_set1 : Nat
  total_set2 : Nat
  reference_set1 : List String
  reference_set2 : List String
  evidence_type : Option String
deriving DecidableEq, Repr

/-- The `db_object_id || ':' || ontology_class_ref` key the comparison
queries count distinct values of. -/
def pairKey (a : AnnotationRec) : String :=
  a.db_object_id ++ ":" ++ a.ontology_class_ref

/-- The OR-chain `(supporting_references = r1 OR ...)` built from a
reference set. -/
def refsIn (refSet : List String) (a : AnnotationRec) : Bool :=
  refSet.contains a.supporting_references

/-- The `unique to one side` count of `compare_reference_sets`: distinct
pair keys of rows passing the evidence filter, in `mine`, with no row of
the same (db_object_id, ontology_class_ref) pair in `other`.  The inner
NOT EXISTS carries no evidence filter. -/
def uniqueToCount (s : Store) (ev : Option String)
    (mine other : List String) : Nat :=
  ((s.gaf_association.filter (fun a =>
      evFilterClause ev a && refsIn mine a
      && !(s.gaf_association.any (fun a2 =>
            (a2.db_object_id == a.db_object_id)
            && (a2.ontology_class_ref == a.ontology_class_ref)
            && refsIn other a2)))).map pairKey).dedup.length

/-- The overlap count of `compare_reference_sets`: distinct pair keys of
a self-join on (db_object_id, ontology_class_ref) where the a1 side
passes the evidence filter and matches set1 and the a2 side matches
set2.  The evidence filter applies to the a1 side only. -/
def overlapCount (s : Store) (ev : Option String)
    (set1 set2 : List String) : Nat :=
  ((s.gaf_association.filter (fun a1 =>
      evFilterClause ev a1 && refsIn set1 a1
      && s.gaf_association.any (fun a2 =>
            (a1.db_object_id == a2.db_object_id)
            && (a1.ontology_class_ref == a2.ontology_class_ref)
            && refsIn set2 a2))).map pairKey).dedup.length

/-- `compare_reference_sets(set1, set2, evidence_type)`.  An empty
reference set produces the SQL fragment `()`, a parser error. -/
def compare_reference_sets (s : Store) (reference_set1 reference_set2 : List String)
    (evidence_type : Option String) : Except String ReferenceComparison :=
  if reference_set1.isEmpty || reference_set2.isEmpty then
    .error "Parser Error"
  else
    let u1 := uniqueToCount s evidence_type reference_set1 reference_set2
    let u2 := uniqueToCount s evidence_type reference_set2 reference_set1
    let ov := overlapCount s evidence_type reference_set1 reference_set2
    .ok { unique_to_set1 := u1, unique_to_set2 := u2, overlap := ov,
          total_set1 := u1 + ov, total_set2 := u2 + ov,
          reference_set1 := reference_set1, reference_set2 := reference_set2,
          evidence_type := evidence_type }

deriving instance DecidableEq for Except

/-! Concrete fixtures used by counterexamples and witnesses. -/

/-- Annotation of gene g1 at class c1, evidence IEA, reference m1. -/
def annA : AnnotationRec := ⟨"g1", "c1", "IEA", "m1", "x1"⟩

/-- Annotation of gene g1 at class c1, evidence IEA, reference m2. -/
def annB : AnnotationRec := ⟨"g1", "c1", "IEA", "m2", "x2"⟩

/-- Two annotations of the same gene on the same class by different
references, with the reflexive closure pair (c1, c1). -/
def storeAB : Store := ⟨[annA, annB], [⟨"c1", "c1"⟩]⟩

/-- A single annotation, with the reflexive closure pair (c1, c1). -/
def singleStore : Store := ⟨[annA], [⟨"c1", "c1"⟩]⟩

/-- Annotation of gene g1 at class c1, evidence IEA, reference R1. -/
def evA : AnnotationRec := ⟨"g1", "c1", "IEA", "R1", "x1"⟩

/-- Annotation of gene g1 at class c1, evidence EXP, reference R2. -/
def evB : AnnotationRec := ⟨"g1", "c1", "EXP", "R2", "x2"⟩

/-- The same (gene, class) pair annotated under references R1 (IEA) and
R2 (EXP); no closure rows (the comparison queries never use them). -/
def evStore : Store := ⟨[evA, evB], []⟩

/-- A database with no rows at all. -/
def emptyStore : Store := ⟨[], []⟩

/-- The evidence filter as the uniqueness claim words it: a passes the
evidence_type filter when one is given, and there is no filter
otherwise. -/
def claimEvPass (ev : Option String) (a : AnnotationRec) : Bool :=
  match ev with
  | some e => a.evidence_type == e
  | none => true

/-- The comparator condition as the uniqueness claim words it: the
method value of a2 is in comparator_methods when that argument is
provided, and differs from the method value of a in the default mode. -/
def claimComparator (method : String) (cm : Option (List String))
    (a a2 : AnnotationRec) : Bool :=
  match cm with
  | some comps => comps.contains (fieldVal a2 method)
  | none => fieldVal a2 method != fieldVal a method

/-- The uniqueness predicate as the claim words it: a passes the
evidence filter and there exists no a2 with the same db_object_id,
satisfying the comparator condition, whose class c2 has (c2, c) in the
closure relation. -/
def claimIsUnique (s : Store) (method : String) (ev : Option String)
    (cm : Option (List String)) (a : AnnotationRec) : Bool :=
  claimEvPass ev a
  && !(s.gaf_association.any (fun a2 =>
        (a2.db_object_id == a.db_object_id)
        && claimComparator method cm a a2
        && s.isa_partof_closure.any (fun p =>
             (p.subject == a2.ontology_class_ref)
             && (p.object == a.ontology_class_ref))))

/-- Inversion of a successful `get_unique_contributions` call. -/
theorem get_unique_contributions_ok {s : Store} {method : String}
    {ev : Option String} {cm : Option (List String)} {u : UniqueContributions}
    (h : get_unique_contributions s method ev cm = .ok u) :
    validFields.contains method = true
    ∧ u.annotations = s.gaf_association.filter (fun a =>
        !(existsRedundant s method cm a) && evFilterClause ev a)
    ∧ u.count = u.annotations.length
    ∧ u.method = method
    ∧ u.evidence_type = ev
    ∧ u.comparator_methods = cm := by
  unfold get_unique_contributions at h
  split at h
  next hv =>
    cases h
    exact ⟨hv, rfl, rfl, rfl, rfl, rfl⟩
  next hv => exact absurd h (by simp)

/-- Inversion of a successful `check_redundancy` call. -/
theorem check_redundancy_ok {s : Store} {method : String}
    {e : String} {cm : Option (List String)} {u : UniqueContributions}
    (h : check_redundancy s method e cm = .ok u) :
    validFields.contains method = true
    ∧ u.annotations = s.gaf_association.filter (fun a =>
        (a.evidence_type == e) && !(existsRedundant s method cm a))
    ∧ u.count = u.annotations.length
    ∧ u.method = method
    ∧ u.evidence_type = some e
    ∧ u.comparator_methods = cm := by
  unfold check_redundancy at h
  split at h
  next hv =>
    cases h
    exact ⟨hv, rfl, rfl, rfl, rfl, rfl⟩
  next hv => exact absurd h (by simp)

/-- When the evidence argument is not the empty string, the appended
evidence filter is the plain equality test the claims describe. -/
theorem evFilterClause_eq_claimEvPass {ev : Option String}
    (hev : ev ≠ some "") (a : AnnotationRec) :
    evFilterClause ev a = claimEvPass ev a := by
  match ev with
  | none => rfl
  | some e =>
    have he : e ≠ "" := by intro h; exact hev (by rw [h])
    simp [evFilterClause, evTruthy, claimEvPass, bne_iff_ne.mpr he]

/-- When the comparator argument is not the explicit empty list, the
comparator clause built by the code agrees with the clause the claims
describe. -/
theorem comparatorClause_eq_claimComparator {cm : Option (List String)}
    (hcm : cm ≠ some []) (method : String) (a a2 : AnnotationRec) :
    comparatorClause method cm a a2 = claimComparator method cm a a2 := by
  match cm with
  | none => rfl
  | some [] => exact absurd rfl hcm
  | some (c :: cs) => rfl

/-- The EXISTS subquery agrees with the existential of the uniqueness
claim when the comparator argument is not the explicit empty list. -/
theorem existsRedundant_eq_claimAny (s : Store) (method : String)
    {cm : Option (List String)} (hcm : cm ≠ some []) (a : AnnotationRec) :
    existsRedundant s method cm a =
      s.gaf_association.any (fun a2 =>
        (a2.db_object_id == a.db_object_id)
        && claimComparator method cm a a2
        && s.isa_partof_closure.any (fun p =>
             (p.subject == a2.ontology_class_ref)
             && (p.object == a.ontology_class_ref))) := by
  rw [Bool.eq_iff_iff]
  simp only [existsRedundant, List.any_eq_true, Bool.and_eq_true, beq_iff_eq,
    comparatorClause_eq_claimComparator hcm]
  constructor
  · rintro ⟨a2, ha2, p, hp, ⟨⟨h1, h2⟩, h3⟩, h4⟩
    exact ⟨a2, ha2, ⟨h4, h2⟩, p, hp, h1.symm, h3⟩
  · rintro ⟨a2, ha2, ⟨h4, h2⟩, p, hp, h1, h3⟩
    exact ⟨a2, ha2, p, hp, ⟨⟨h1.symm, h2⟩, h3⟩, h4⟩

/-- Pointwise agreement of the filter used by `get_unique_contributions`
with the claim predicate, outside the two degenerate argument values. -/
theorem implPred_eq_claimIsUnique (s : Store) (method : String)
    {ev : Option String} {cm : Option (List String)}
    (hcm : cm ≠ some []) (hev : ev ≠ some "") (a : AnnotationRec) :
    (!(existsRedundant s method cm a) && evFilterClause ev a)
      = claimIsUnique s method ev cm a := by
  rw [claimIsUnique, ← existsRedundant_eq_claimAny s method hcm a,
    evFilterClause_eq_claimEvPass hev, Bool.and_comm]

/-- C1 (counterexample): with the explicit empty comparator list, annA
satisfies the uniqueness predicate exactly as the claim words it (no a2
has a method value in the empty set), and annA is in the store, yet the
code returns no rows: the Python truthiness test sends the empty list to
the default different-method mode, under which annB makes annA
redundant. -/
theorem C1_counterexample :
    claimIsUnique storeAB "supporting_references" none (some []) annA = true
    ∧ annA ∈ storeAB.gaf_association
    ∧ (get_unique_contributions storeAB "supporting_references" none (some [])).map
        (fun u => u.annotations) = .ok [] := by
  exact ⟨rfl, by decide, rfl⟩

/-- C1 (amended): for every store, valid method column, evidence
argument other than the empty string, and comparator argument other than
the explicit empty list, `get_unique_contributions` returns an
annotation of the store if and only if it passes the evidence filter and
no annotation with the same db_object_id, satisfying the comparator
condition (method value in comparator_methods when provided, different
method value in the default mode), and with class c2 such that (c2, c)
is in the closure, exists; the returned count is the cardinality of that
set. -/
theorem C1_theorem (s : Store) (method : String) (ev : Option String)
    (cm : Option (List String)) (u : UniqueContributions)
    (hcm : cm ≠ some []) (hev : ev ≠ some "")
    (h : get_unique_contributions s method ev cm = .ok u) :
    (∀ a ∈ s.gaf_association,
        (a ∈ u.annotations ↔ claimIsUnique s method ev cm a = true))
    ∧ u.count = (s.gaf_association.filter (claimIsUnique s method ev cm)).length := by
  obtain ⟨hv, hann, hcount, _, _, _⟩ := get_unique_contributions_ok h
  have hpt : ∀ a, (!(existsRedundant s method cm a) && evFilterClause ev a)
      = claimIsUnique s method ev cm a :=
    fun a => implPred_eq_claimIsUnique s method hcm hev a
  constructor
  · intro a ha
    rw [hann, List.mem_filter, hpt a]
    simp [ha]
  · rw [hcount, hann, List.filter_congr (fun a _ => hpt a)]

/-- C1 (witness): the amended theorem applied to the two-row store with
the comparator set containing no method value of the store. -/
theorem C1_witness :
    (∀ a ∈ storeAB.gaf_association,
        (a ∈ ([annA, annB] : List AnnotationRec) ↔
          claimIsUnique storeAB "supporting_references" none (some ["m9"]) a = true))
    ∧ (2 : Nat) = (storeAB.gaf_association.filter
        (claimIsUnique storeAB "supporting_references" none (some ["m9"]))).length :=
  C1_theorem storeAB "supporting_references" none (some ["m9"])
    ⟨[annA, annB], 2, "supporting_references", none, some ["m9"]⟩
    (by decide) (by decide) rfl

/-- C2 (counterexample): the store holds the single row annA, whose
supporting_references value is m1, and the closure holds the reflexive
pair (c1, c1).  Calling `get_unique_contributions` with the explicit
comparator set containing m1 judges annA redundant: the only possible
comparator row is annA itself, so it is found redundant purely by
comparison with itself, and the result is empty. -/
theorem C2_counterexample :
    singleStore.gaf_association = [annA]
    ∧ (get_unique_contributions singleStore "supporting_references" none
        (some ["m1"])).map (fun u => u.annotations) = .ok [] := by
  exact ⟨rfl, rfl⟩

/-- C2 (amended): in the default mode (comparator_methods None or the
empty list) an annotation is never judged redundant by comparison with
itself: whenever a filtered row of the store is dropped by
`get_unique_contributions`, some witness row with a DIFFERENT method
value, hence a different row, makes it redundant.  When an explicit
comparator set contains the row's own method value the identity case is
not excluded (see the counterexample). -/
theorem C2_theorem (s : Store) (method : String) (ev : Option String)
    (cm : Option (List String)) (u : UniqueContributions) (a : AnnotationRec)
    (hdefault : cm = none ∨ cm = some [])
    (h : get_unique_contributions s method ev cm = .ok u)
    (ha : a ∈ s.gaf_association) (hev : evFilterClause ev a = true)
    (hnotmem : a ∉ u.annotations) :
    ∃ a2 ∈ s.gaf_association, a2 ≠ a
      ∧ fieldVal a2 method ≠ fieldVal a method
      ∧ a2.db_object_id = a.db_object_id
      ∧ ∃ p ∈ s.isa_partof_closure,
          p.subject = a2.ontology_class_ref ∧ p.object = a.ontology_class_ref := by
  obtain ⟨hv, hann, _, _, _, _⟩ := get_unique_contributions_ok h
  rw [hann, List.mem_filter] at hnotmem
  have hex : existsRedundant s method cm a = true := by
    by_contra hx
    rw [Bool.not_eq_true] at hx
    exact hnotmem ⟨ha, by rw [hx, hev]; rfl⟩
  have hcomp : ∀ a2, comparatorClause method cm a a2
      = (fieldVal a2 method != fieldVal a method) := by
    rcases hdefault with h1 | h1 <;> subst h1 <;> intro a2 <;> rfl
  rw [existsRedundant] at hex
  simp only [List.any_eq_true, Bool.and_eq_true, beq_iff_eq, hcomp,
    bne_iff_ne] at hex
  obtain ⟨a2, ha2, p, hp, ⟨⟨hsub, hm⟩, hobj⟩, hgene⟩ := hex
  refine ⟨a2, ha2, ?_, hm, hgene, p, hp, hsub.symm, hobj⟩
  intro hEq
  exact hm (by rw [hEq])

/-- C2 (witness): the amended theorem applied to the two-row store in
default mode; annA is dropped and the different-method row annB is the
witness. -/
theorem C2_witness :
    ∃ a2 ∈ storeAB.gaf_association, a2 ≠ annA
      ∧ fieldVal a2 "supporting_references" ≠ fieldVal annA "supporting_references"
      ∧ a2.db_object_id = annA.db_object_id
      ∧ ∃ p ∈ storeAB.isa_partof_closure,
          p.subject = a2.ontology_class_ref ∧ p.object = annA.ontology_class_ref :=
  C2_theorem storeAB "supporting_references" none none
    ⟨[], 0, "supporting_references", none, none⟩ annA
    (Or.inl rfl) rfl (by decide) rfl (by decide)

/-- C3 (counterexample): the two-row store passes every row through the
(absent) evidence filter, and the claim says an explicit empty
comparator list makes every filtered row unique; yet the code returns
no rows, because Python truthiness sends the empty list to the default
different-method mode. -/
theorem C3_counterexample :
    storeAB.gaf_association.length = 2
    ∧ (∀ a ∈ storeAB.gaf_association, evFilterClause none a = true)
    ∧ (get_unique_contributions storeAB "supporting_references" none
        (some [])).map (fun u => (u.annotations, u.count)) = .ok ([], 0) := by
  exact ⟨rfl, by decide, rfl⟩

/-- C3 (amended): `get_unique_contributions` and `check_redundancy`
treat an explicit empty comparator_methods list IDENTICALLY to
None/absent (Python truthiness): both compare against all other method
values, so the computed rows and count coincide; only the echoed
comparator_methods field differs. -/
theorem C3_theorem (s : Store) (method : String) (ev : Option String)
    (e : String) :
    (get_unique_contributions s method ev (some [])).map
        (fun u => (u.annotations, u.count))
      = (get_unique_contributions s method ev none).map
          (fun u => (u.annotations, u.count))
    ∧ (check_redundancy s method e (some [])).map
        (fun u => (u.annotations, u.count))
      = (check_redundancy s method e none).map
          (fun u => (u.annotations, u.count)) := by
  constructor
  · unfold get_unique_contributions
    split <;> rfl
  · unfold check_redundancy
    split <;> rfl

/-- Without an evidence filter the overlap count is symmetric in the two
reference sets: the self-join conditions are symmetric and the pair key
of the joined rows agrees. -/
theorem overlapCount_symm (s : Store) {ev : Option String}
    (hev : evTruthy ev = false) (set1 set2 : List String) :
    overlapCount s ev set1 set2 = overlapCount s ev set2 set1 := by
  have hf : ∀ a : AnnotationRec, evFilterClause ev a = true := by
    intro a
    rw [evFilterClause, hev]
    rfl
  unfold overlapCount
  rw [← List.card_toFinset, ← List.card_toFinset]
  congr 1
  apply Finset.ext
  intro k
  simp only [List.mem_toFinset, List.mem_map, List.mem_filter,
    Bool.and_eq_true, hf, true_and, List.any_eq_true, beq_iff_eq]
  constructor
  · rintro ⟨a1, ⟨ha1, hs1, a2, ha2, ⟨hgene, hclass⟩, hs2⟩, hkey⟩
    refine ⟨a2, ⟨ha2, hs2, a1, ha1, ⟨hgene.symm, hclass.symm⟩, hs1⟩, ?_⟩
    rw [← hkey]
    unfold pairKey
    rw [hgene, hclass]
  · rintro ⟨a2, ⟨ha2, hs2, a1, ha1, ⟨hgene, hclass⟩, hs1⟩, hkey⟩
    refine ⟨a1, ⟨ha1, hs1, a2, ha2, ⟨hgene.symm, hclass.symm⟩, hs2⟩, ?_⟩
    rw [← hkey]
    unfold pairKey
    rw [hgene, hclass]

/-- C4 (counterexample): on the store where the pair (g1, c1) is
annotated under R1 with evidence IEA and under R2 with evidence EXP,
comparing with the IEA filter gives overlap 1 in one order and overlap 0
in the other: the overlap query applies the evidence filter to the
set1-side row only, so swapping the sets changes the result. -/
theorem C4_counterexample :
    (compare_reference_sets evStore ["R1"] ["R2"] (some "IEA")).map
      (fun c => c.overlap) = .ok 1
    ∧ (compare_reference_sets evStore ["R2"] ["R1"] (some "IEA")).map
        (fun c => c.overlap) = .ok 0 := by
  exact ⟨rfl, rfl⟩

/-- C4 (amended): `unique_to_set1` of compare(S1, S2) always equals
`unique_to_set2` of compare(S2, S1), for every evidence argument; the
`overlap` field is symmetric under swapping the sets whenever NO
evidence filter is applied (evidence_type None or the empty string),
but with an evidence filter it applies only to the set1-side row of the
join and need not be symmetric. -/
theorem C4_theorem (s : Store) (set1 set2 : List String)
    (ev : Option String) :
    (compare_reference_sets s set1 set2 ev).map (fun c => c.unique_to_set1)
      = (compare_reference_sets s set2 set1 ev).map (fun c => c.unique_to_set2)
    ∧ (evTruthy ev = false →
        (compare_reference_sets s set1 set2 ev).map (fun c => c.overlap)
          = (compare_reference_sets s set2 set1 ev).map (fun c => c.overlap)) := by
  constructor
  · by_cases h1 : set1.isEmpty <;> by_cases h2 : set2.isEmpty <;>
      simp only [compare_reference_sets, h1, h2] <;> rfl
  · intro hev
    by_cases h1 : set1.isEmpty <;> by_cases h2 : set2.isEmpty <;>
      simp only [compare_reference_sets, h1, h2,
        overlapCount_symm s hev set1 set2] <;> rfl

/-- C4 (witness): the amended theorem applied to the concrete store with
no evidence filter; both overlap orders agree there. -/
theorem C4_witness :
    (compare_reference_sets evStore ["R1"] ["R2"] none).map (fun c => c.overlap)
      = (compare_reference_sets evStore ["R2"] ["R1"] none).map
          (fun c => c.overlap) :=
  (C4_theorem evStore ["R1"] ["R2"] none).2 rfl

/-- Summing, over a duplicate-free list of keys covering every row, the
number of rows having each key gives the number of rows. -/
theorem sum_countP_eq_length (rows : List AnnotationRec)
    (key : AnnotationRec → List String) (keys : List (List String))
    (hnd : keys.Nodup) (hmem : ∀ a ∈ rows, key a ∈ keys) :
    (keys.map (fun k => rows.countP (fun a => key a == k))).sum
      = rows.length := by
  induction keys generalizing rows with
  | nil =>
    cases rows with
    | nil => rfl
    | cons a as => exact absurd (hmem a (List.mem_cons_self a as)) (List.not_mem_nil _)
  | cons k ks ih =>
    rw [List.map_cons, List.sum_cons]
    have hk_notin : k ∉ ks := (List.nodup_cons.mp hnd).1
    have hnd' : ks.Nodup := (List.nodup_cons.mp hnd).2
    have hmem' : ∀ a ∈ rows.filter (fun a => !(key a == k)), key a ∈ ks := by
      intro a ha
      rw [List.mem_filter] at ha
      have h1 := hmem a ha.1
      rw [List.mem_cons] at h1
      rcases h1 with h1 | h1
      · exfalso
        have := ha.2
        rw [h1] at this
        simp at this
      · exact h1
    have hcount : ∀ x ∈ ks, rows.countP (fun a => key a == x)
        = (rows.filter (fun a => !(key a == k))).countP (fun a => key a == x) := by
      intro x hx
      rw [List.countP_filter]
      apply List.countP_congr
      intro a _
      constructor
      · intro h
        rw [h]
        have hxk : x ≠ k := by
          intro hcontr
          exact hk_notin (hcontr ▸ hx)
        have : (key a == k) = false := by
          rw [beq_eq_false_iff_ne]
          intro hcontr
          exact hxk (by rw [← beq_iff_eq.mp h, hcontr])
        rw [this]
        rfl
      · intro h
        exact (Bool.and_eq_true _ _ ▸ h).1
    rw [List.map_congr_left hcount, ih _ hnd' hmem']
    rw [← List.countP_eq_length_filter,
      List.length_eq_countP_add_countP (fun a => key a == k) rows]
    congr 1
    apply List.countP_congr
    intro a _
    simp

/-- Inserting preserves the multiset of groups. -/
theorem insertByCountDesc_perm (x : List String × Nat)
    (l : List (List String × Nat)) :
    (insertByCountDesc x l).Perm (x :: l) := by
  induction l with
  | nil => exact List.Perm.refl _
  | cons y ys ih =>
    rw [insertByCountDesc]
    split
    · exact List.Perm.refl _
    · exact (ih.cons y).trans (List.Perm.swap x y ys)

/-- Sorting by descending count preserves the multiset of groups. -/
theorem sortByCountDesc_perm (l : List (List String × Nat)) :
    (sortByCountDesc l).Perm l := by
  induction l with
  | nil => exact List.Perm.refl _
  | cons x xs ih =>
    exact (insertByCountDesc_perm x (sortByCountDesc xs)).trans (ih.cons x)

/-- The group sizes computed by `groupCounts` sum to the number of
rows. -/
theorem sum_groupCounts (rows : List AnnotationRec) (gb : List String) :
    ((groupCounts rows gb).map (fun kn => kn.2)).sum = rows.length := by
  unfold groupCounts
  rw [List.map_map]
  exact sum_countP_eq_length rows (keyOf gb) _ (List.nodup_dedup _)
    (fun a ha => List.mem_dedup.mpr (List.mem_map_of_mem _ ha))

/-- Inversion of a successful grouping step: the group sizes sum to
total_unique, which is the count of the underlying result. -/
theorem summarize_ok_sum {u : UniqueContributions} {gb : List String}
    {r : ContributionSummaryResult}
    (hcount : u.count = u.annotations.length)
    (h : summarize u gb = .ok r) :
    (r.summaries.map (fun x => x.contribution_count)).sum = r.total_unique
    ∧ r.total_unique = u.count := by
  unfold summarize at h
  split at h
  next hempty =>
    cases h
    refine ⟨rfl, ?_⟩
    show (0 : Nat) = u.count
    rw [hcount, List.isEmpty_iff.mp hempty]
    rfl
  next hempty =>
    split at h
    next => exact absurd h (by simp)
    next =>
      split at h
      next hall =>
        cases h
        refine ⟨?_, rfl⟩
        dsimp only
        rw [List.map_map]
        show (List.map (fun kn : List String × Nat => kn.2)
          (sortByCountDesc (groupCounts u.annotations gb))).sum = u.count
        rw [((sortByCountDesc_perm (groupCounts u.annotations gb)).map
          (fun kn : List String × Nat => kn.2)).sum_eq]
        rw [sum_groupCounts, hcount]
      next => exact absurd h (by simp)

/-- C5: for every successful `get_unique_contributions_summary` call,
the contribution counts of the returned summaries sum to the returned
total_unique, which equals the un-grouped count of the underlying
`get_unique_contributions` call. -/
theorem C5_theorem (s : Store) (method : String) (ev : Option String)
    (cm : Option (List String)) (gb : Option (List String))
    (r : ContributionSummaryResult) (u : UniqueContributions)
    (hr : get_unique_contributions_summary s method ev cm gb = .ok r)
    (hu : get_unique_contributions s method ev cm = .ok u) :
    (r.summaries.map (fun x => x.contribution_count)).sum = r.total_unique
    ∧ r.total_unique = u.count := by
  obtain ⟨hv, hann, hcount, _, _, _⟩ := get_unique_contributions_ok hu
  unfold get_unique_contributions_summary at hr
  rw [hu] at hr
  exact summarize_ok_sum hcount hr

/-- C5 (witness): the theorem applied to the two-row store with a
comparator set making both rows unique; the two group counts 1 and 1
sum to the total 2. -/
theorem C5_witness :
    ((([⟨[("evidence_type", "IEA"), ("supporting_references", "m2")], 1⟩,
        ⟨[("evidence_type", "IEA"), ("supporting_references", "m1")], 1⟩] :
        List ContributionSummary).map (fun x => x.contribution_count)).sum
      = (2 : Nat))
    ∧ (2 : Nat) = (2 : Nat) := by
  have h := C5_theorem storeAB "supporting_references" none (some ["m9"]) none
    ⟨[⟨[("evidence_type", "IEA"), ("supporting_references", "m2")], 1⟩,
      ⟨[("evidence_type", "IEA"), ("supporting_references", "m1")], 1⟩],
     2, ["evidence_type", "supporting_references"]⟩
    ⟨[annA, annB], 2, "supporting_references", none, some ["m9"]⟩
    (by decide) rfl
  exact h

/-- The dynamic lookup of the supporting_references column yields the
column itself. -/
theorem fieldVal_supporting_references (a : AnnotationRec) :
    fieldVal a "supporting_references" = a.supporting_references := rfl

/-- C6: for every annotation row with the given reference and evidence
type, the row is in `find_redundant_references(r, e)` exactly when it is
NOT among the rows of `get_unique_contributions` (method
supporting_references, same evidence type) having that reference: the
two results partition the row set, since they test the same EXISTS
subquery positively and negatively. -/
theorem C6_theorem (s : Store) (r : String) (e : String) (a : AnnotationRec)
    (u : UniqueContributions)
    (hu : get_unique_contributions s "supporting_references" (some e) none = .ok u)
    (ha : a ∈ s.gaf_association)
    (href : a.supporting_references = r)
    (hev : a.evidence_type = e) :
    ((a ∈ (find_redundant_references s r e).annotations) ↔
      ¬(a ∈ u.annotations.filter (fun x => x.supporting_references == r))) := by
  obtain ⟨hv, hann, _, _, _, _⟩ := get_unique_contributions_ok hu
  have hevf : evFilterClause (some e) a = true := by
    by_cases he : e = ""
    · subst he
      rfl
    · simp [evFilterClause, evTruthy, bne_iff_ne.mpr he, hev]
  have hmem1 : (a ∈ (find_redundant_references s r e).annotations) ↔
      existsRedundant s "supporting_references" none a = true := by
    show (a ∈ s.gaf_association.filter _) ↔ _
    rw [List.mem_filter]
    constructor
    · intro h
      have hb := h.2
      simp only [Bool.and_eq_true] at hb
      exact hb.2
    · intro hER
      refine ⟨ha, ?_⟩
      simp only [Bool.and_eq_true]
      exact ⟨⟨by simp [href], by simp [hev]⟩, hER⟩
  have hmem2 : (a ∈ u.annotations.filter (fun x => x.supporting_references == r)) ↔
      existsRedundant s "supporting_references" none a = false := by
    rw [hann, List.mem_filter, List.mem_filter]
    constructor
    · rintro ⟨⟨_, hpred⟩, _⟩
      simp only [Bool.and_eq_true] at hpred
      simpa using hpred.1
    · intro hER
      refine ⟨⟨ha, ?_⟩, by simp [href]⟩
      simp [hER, hevf]
  rw [hmem1, hmem2]
  cases hval : existsRedundant s "supporting_references" none a <;> simp [hval]

/-- C6 (witness): the partition at the concrete two-row store: annA is
redundant under reference m1 with evidence IEA and accordingly absent
from the unique rows with that reference. -/
theorem C6_witness :
    (annA ∈ (find_redundant_references storeAB "m1" "IEA").annotations) ↔
      ¬(annA ∈ (([] : List AnnotationRec)).filter
          (fun x => x.supporting_references == "m1")) :=
  C6_theorem storeAB "m1" "IEA" annA
    ⟨[], 0, "supporting_references", some "IEA", none⟩
    rfl (by decide) rfl rfl

/-- C7 (counterexample): the empty list is a subset of the set
containing only the unused method value m9, yet under the empty list
(Python truthiness: default different-method mode) both rows of the
two-row store are dropped, while under the superset no row is dropped:
the result under the superset is not a subset of the result under the
subset. -/
theorem C7_counterexample :
    (∀ x ∈ ([] : List String), x ∈ ["m9"])
    ∧ get_unique_contributions storeAB "supporting_references" none (some ["m9"])
        = .ok ⟨[annA, annB], 2, "supporting_references", none, some ["m9"]⟩
    ∧ get_unique_contributions storeAB "supporting_references" none (some [])
        = .ok ⟨[], 0, "supporting_references", none, some []⟩
    ∧ annA ∈ ([annA, annB] : List AnnotationRec)
    ∧ annA ∉ ([] : List AnnotationRec) := by
  exact ⟨by simp, rfl, rfl, by decide, by decide⟩

/-- C7 (amended): for all NON-EMPTY comparator lists S1 and S2 with S1 a
subset of S2, the rows returned under comparator S2 are a subset of the
rows returned under comparator S1: any redundancy witness with method
value in S1 is also one in S2. -/
theorem C7_theorem (s : Store) (method : String) (ev : Option String)
    (setA setB : List String) (u1 u2 : UniqueContributions)
    (hne : setA ≠ [])
    (hsub : ∀ x ∈ setA, x ∈ setB)
    (h1 : get_unique_contributions s method ev (some setA) = .ok u1)
    (h2 : get_unique_contributions s method ev (some setB) = .ok u2) :
    ∀ a ∈ u2.annotations, a ∈ u1.annotations := by
  obtain ⟨_, hann1, _, _, _, _⟩ := get_unique_contributions_ok h1
  obtain ⟨_, hann2, _, _, _, _⟩ := get_unique_contributions_ok h2
  intro a ha
  rw [hann2, List.mem_filter] at ha
  rw [hann1, List.mem_filter]
  refine ⟨ha.1, ?_⟩
  have hb := ha.2
  simp only [Bool.and_eq_true] at hb ⊢
  refine ⟨?_, hb.2⟩
  have hB := hb.1
  rw [Bool.not_eq_eq_eq_not] at hB ⊢
  by_contra hx
  have hEx1 : existsRedundant s method (some setA) a = true := by
    cases hval : existsRedundant s method (some setA) a
    · exact absurd (by rw [hval]; rfl) hx
    · rfl
  have hEx2 : existsRedundant s method (some setB) a = true := by
    obtain ⟨c, cs, hA⟩ : ∃ c cs, setA = c :: cs := by
      cases setA with
      | nil => exact absurd rfl hne
      | cons c cs => exact ⟨c, cs, rfl⟩
    obtain ⟨d, ds, hB2⟩ : ∃ d ds, setB = d :: ds := by
      cases hBv : setB with
      | nil =>
        exfalso
        have := hsub c (by rw [hA]; exact List.mem_cons_self c cs)
        rw [hBv] at this
        exact List.not_mem_nil c this
      | cons d ds => exact ⟨d, ds, rfl⟩
      
    rw [existsRedundant] at hEx1 ⊢
    simp only [List.any_eq_true, Bool.and_eq_true] at hEx1 ⊢
    obtain ⟨a2, ha2, p, hp, ⟨⟨hs1, hcomp⟩, ho⟩, hg⟩ := hEx1
    refine ⟨a2, ha2, p, hp, ⟨⟨hs1, ?_⟩, ho⟩, hg⟩
    rw [hA] at hcomp
    rw [hB2]
    rw [comparatorClause] at hcomp ⊢
    have hmemA : fieldVal a2 method ∈ setA := by
      rw [hA]
      exact List.elem_iff.mp hcomp
    have hmemB : fieldVal a2 method ∈ setB := hsub _ hmemA
    rw [hB2] at hmemB
    exact List.elem_iff.mpr hmemB
  rw [hEx2] at hB
  exact absurd hB (by simp)

/-- C7 (witness): the amended theorem at the concrete store with the
comparator sets containing only unused method values; both calls return
both rows. -/
theorem C7_witness :
    annA ∈ ([annA, annB] : List AnnotationRec) :=
  C7_theorem storeAB "supporting_references" none ["m9"] ["m9", "m8"]
    ⟨[annA, annB], 2, "supporting_references", none, some ["m9"]⟩
    ⟨[annA, annB], 2, "supporting_references", none, some ["m9", "m8"]⟩
    (by decide) (by decide) rfl rfl annA (by decide)

/-- C8 (counterexample): with the empty-string evidence type (a non-None
value), `check_redundancy` filters on evidence_type equal to the empty
string and returns nothing, while `get_unique_contributions` drops the
filter entirely (Python truthiness) and returns the row: the two calls
disagree. -/
theorem C8_counterexample :
    check_redundancy singleStore "supporting_references" "" none
      = .ok ⟨[], 0, "supporting_references", some "", none⟩
    ∧ get_unique_contributions singleStore "supporting_references" (some "") none
      = .ok ⟨[annA], 1, "supporting_references", some "", none⟩ := by
  exact ⟨rfl, rfl⟩

/-- C8 (amended): for every NON-EMPTY evidence type string, and every
method and comparator argument, `check_redundancy` returns exactly the
same result record as `get_unique_contributions` with that evidence
type: one predicate, mandatory evidence filter. -/
theorem C8_theorem (s : Store) (method : String) (e : String)
    (cm : Option (List String)) (he : e ≠ "") :
    check_redundancy s method e cm
      = get_unique_contributions s method (some e) cm := by
  unfold check_redundancy get_unique_contributions
  by_cases hv : validFields.contains method = true
  · rw [if_pos hv, if_pos hv]
    have hp : ∀ a ∈ s.gaf_association,
        ((a.evidence_type == e) && !(existsRedundant s method cm a))
          = (!(existsRedundant s method cm a) && evFilterClause (some e) a) := by
      intro a _
      have hc : evFilterClause (some e) a = (a.evidence_type == e) := by
        simp [evFilterClause, evTruthy, bne_iff_ne.mpr he]
      rw [hc, Bool.and_comm]
    rw [List.filter_congr hp]
  · rw [if_neg hv, if_neg hv]

/-- C8 (witness): the amended theorem at the concrete two-row store and
the non-empty evidence type IEA. -/
theorem C8_witness :
    check_redundancy storeAB "supporting_references" "IEA" none
      = get_unique_contributions storeAB "supporting_references" (some "IEA") none :=
  C8_theorem storeAB "supporting_references" "IEA" none (by decide)

/-- C9 (counterexample): grouping by a column that does not exist, over
an empty store, returns the empty summary successfully instead of
failing: the code returns before validating the group-by columns when
the result frame is empty. -/
theorem C9_counterexample :
    validFields.contains "nonexistent_field" = false
    ∧ get_unique_contributions_summary emptyStore "supporting_references"
        none none (some ["nonexistent_field"])
      = .ok ⟨[], 0, ["nonexistent_field"]⟩ := by
  exact ⟨rfl, rfl⟩

/-- C9 (amended): whenever the underlying unique-contribution result is
NON-empty, grouping by a list containing a column absent from the rows
fails with the KeyError before any summary is returned; with an empty
result the group-by columns are not validated and the empty summary is
returned. -/
theorem C9_theorem (s : Store) (method : String) (ev : Option String)
    (cm : Option (List String)) (gb : List String) (f : String)
    (u : UniqueContributions)
    (hu : get_unique_contributions s method ev cm = .ok u)
    (hne : u.annotations ≠ [])
    (hf : f ∈ gb)
    (hinvalid : validFields.contains f = false) :
    get_unique_contributions_summary s method ev cm (some gb)
      = .error "KeyError" := by
  unfold get_unique_contributions_summary
  rw [hu]
  show summarize u gb = .error "KeyError"
  have hempty : u.annotations.isEmpty = false := by
    rw [List.isEmpty_eq_false]
    exact hne
  have hgb : gb.isEmpty = false := by
    cases gb with
    | nil => exact absurd hf (List.not_mem_nil f)
    | cons x xs => rfl
  have hall : (gb.all fun x => validFields.contains x) = false := by
    rw [List.all_eq_false]
    exact ⟨f, hf, by rw [hinvalid]; simp⟩
  unfold summarize
  simp [hempty, hgb, hall]
  refine ⟨f, hf, fun hmem => ?_⟩
  have hc : validFields.contains f = true := List.elem_iff.mpr hmem
  rw [hc] at hinvalid
  exact Bool.noConfusion hinvalid

/-- C9 (witness): the amended theorem at the two-row store with a
comparator set making the result non-empty and an absent group-by
column. -/
theorem C9_witness :
    get_unique_contributions_summary storeAB "supporting_references" none
      (some ["m9"]) (some ["nonexistent_field"]) = .error "KeyError" :=
  C9_theorem storeAB "supporting_references" none (some ["m9"])
    ["nonexistent_field"] "nonexistent_field"
    ⟨[annA, annB], 2, "supporting_references", none, some ["m9"]⟩
    rfl (by decide) (by decide) rfl

/-- C10: every successful result of `check_redundancy` and
`get_unique_contributions`, and every result of
`find_redundant_references`, has count equal to the length of its
annotation list and echoes back the method, evidence type, and
comparator arguments; `find_redundant_references` always reports the
supporting_references method and no comparator set. -/
theorem C10_theorem (s : Store) (method : String) (e : String)
    (ev : Option String) (cm : Option (List String)) (r e2 : String)
    (u1 u2 : UniqueContributions)
    (h1 : check_redundancy s method e cm = .ok u1)
    (h2 : get_unique_contributions s method ev cm = .ok u2) :
    (u1.count = u1.annotations.length ∧ u1.method = method
      ∧ u1.evidence_type = some e ∧ u1.comparator_methods = cm)
    ∧ (u2.count = u2.annotations.length ∧ u2.method = method
      ∧ u2.evidence_type = ev ∧ u2.comparator_methods = cm)
    ∧ ((find_redundant_references s r e2).count
        = (find_redundant_references s r e2).annotations.length
      ∧ (find_redundant_references s r e2).method = "supporting_references"
      ∧ (find_redundant_references s r e2).evidence_type = some e2
      ∧ (find_redundant_references s r e2).comparator_methods = none) := by
  obtain ⟨_, _, hc1, hm1, he1, hcm1⟩ := check_redundancy_ok h1
  obtain ⟨_, _, hc2, hm2, he2, hcm2⟩ := get_unique_contributions_ok h2
  exact ⟨⟨hc1, hm1, he1, hcm1⟩, ⟨hc2, hm2, he2, hcm2⟩, rfl, rfl, rfl, rfl⟩

/-- C10 (witness): the invariants at the concrete two-row store. -/
theorem C10_witness :
    (((0 : Nat) = ([] : List AnnotationRec).length
      ∧ "supporting_references" = "supporting_references"
      ∧ (some "IEA" : Option String) = some "IEA"
      ∧ (none : Option (List String)) = none)
    ∧ ((0 : Nat) = ([] : List AnnotationRec).length
      ∧ "supporting_references" = "supporting_references"
      ∧ (none : Option String) = none
      ∧ (none : Option (List String)) = none)
    ∧ ((find_redundant_references storeAB "m1" "IEA").count
        = (find_redundant_references storeAB "m1" "IEA").annotations.length
      ∧ (find_redundant_references storeAB "m1" "IEA").method
        = "supporting_references"
      ∧ (find_redundant_references storeAB "m1" "IEA").evidence_type
        = some "IEA"
      ∧ (find_redundant_references storeAB "m1" "IEA").comparator_methods
        = none)) :=
  C10_theorem storeAB "supporting_references" "IEA" none none "m1" "IEA"
    ⟨[], 0, "supporting_references", some "IEA", none⟩
    ⟨[], 0, "supporting_references", none, none⟩
    rfl rfl
